import Mathlib

/-!
Verification of the document ingestion and candidate matching pipeline of the
AI powered job matcher (src/main.py).  The pure data flow of the Python
functions is embedded shallowly: external AI services, the PDF library and
the file system are modelled as oracle parameters whose results are
`Except String` values (an `Except.error` models a raised exception), and
every Python function that catches exceptions internally becomes a total
Lean function of those oracle outcomes.
-/

namespace JobMatcher

/-- Python whitespace class, the characters matched by the regex class
for spaces and removed by the strip method. -/
def pyIsSpace (c : Char) : Bool :=
  c = ' ' || c = '\t' || c = '\n' || c = '\r' || c = '\x0b' || c = '\x0c'

/-- Python decimal digit class, the characters matched by the regex digit
class in ASCII mode. -/
def pyIsDigit (c : Char) : Bool :=
  '0' ≤ c && c ≤ '9'

/-- Value of a digit string, as computed by the Python int conversion. -/
def digitsToNat (l : List Char) : Nat :=
  l.foldl (fun n c => 10 * n + (c.toNat - '0'.toNat)) 0

/-- Python strip: remove leading and trailing whitespace. -/
def pyStrip (l : List Char) : List Char :=
  ((l.dropWhile pyIsSpace).reverse.dropWhile pyIsSpace).reverse

/-- Python strip lifted to strings. -/
def pyStripStr (s : String) : String :=
  String.mk (pyStrip s.toList)

/-- Match a literal character sequence at the front of the input and
return the remainder, as a regex literal does. -/
def dropLit : List Char → List Char → Option (List Char)
  | [], l => some l
  | _ :: _, [] => none
  | c :: cs, x :: xs => if x = c then dropLit cs xs else none

/-- Substring membership test, Python operator in on strings. -/
def listContainsSub (pat : List Char) : List Char → Bool
  | [] => pat.isEmpty
  | x :: rest => pat.isPrefixOf (x :: rest) || listContainsSub pat rest

/-- Attempt to match the regex PERCENTAGE: backslash-s star, a digit group,
then a percent sign, anchored at the head of the input.  The whitespace
and digit classes are disjoint so the greedy match is deterministic. -/
def matchPercentAt (l : List Char) : Option Nat :=
  match dropLit "PERCENTAGE:".toList l with
  | none => none
  | some rest =>
    let afterSpace := rest.dropWhile pyIsSpace
    match afterSpace.takeWhile pyIsDigit, afterSpace.dropWhile pyIsDigit with
    | [], _ => none
    | _ :: _, '%' :: _ => some (digitsToNat (afterSpace.takeWhile pyIsDigit))
    | _ :: _, _ => none

/-- First match of the percentage pattern in the text, as found by
re.search in rate_cv_suitability (src/main.py line 145). -/
def searchPercent : List Char → Option Nat
  | [] => none
  | c :: rest =>
    match matchPercentAt (c :: rest) with
    | some n => some n
    | none => searchPercent rest

/-- First match of the regex JUSTIFICATION: followed by the rest of the
text (DOTALL), as found by re.search in rate_cv_suitability (src/main.py
line 153); returns the text following the literal. -/
def searchJustification : List Char → Option (List Char)
  | [] => none
  | c :: rest =>
    match dropLit "JUSTIFICATION:".toList (c :: rest) with
    | some tail => some tail
    | none => searchJustification rest

/-- Embedding of rate_cv_suitability (src/main.py lines 117-160).  The
argument is the outcome of the scoring service call: an exception with
message e, or the reply text.  The function never raises: the Python try
block spans the whole body and converts an exception into score zero with
an error description. -/
def rate_cv_suitability (svcReply : Except String String) : Nat × String :=
  match svcReply with
  | .error e => (0, "Error rating CV: " ++ e)
  | .ok text =>
    let score :=
      match searchPercent text.toList with
      | some n => max 0 (min 100 n)
      | none => 0
    let justification :=
      match searchJustification text.toList with
      | some tail => String.mk (pyStrip tail)
      | none => "N/A - No justification provided."
    (score, justification)

/-- Embedding of parse_cv_skills_and_experience (src/main.py lines
92-115).  The argument is the outcome of the profile service call: an
exception with message e, a falsy response, or the reply text.  On an
exception the function returns an error description string, it does not
raise and it does not mark the candidate failed. -/
def parse_cv_skills_and_experience (svcReply : Except String (Option String)) : String :=
  match svcReply with
  | .error e => "Error parsing CV: " ++ e
  | .ok none => "Could not parse CV."
  | .ok (some t) => t

/-- Per candidate record stored in the cv data mapping (src/main.py lines
394 and 397). -/
structure CvInfo where
  text_raw : String
  parsed_info : String
deriving DecidableEq

/-- A rating produced by the matching engine (src/main.py lines 447-451
and 460-464). -/
structure CandidateRating where
  filename : String
  score : Nat
  justification : String
deriving DecidableEq

/-- Justification recorded for a candidate skipped by the engine
(src/main.py line 450). -/
def skipMsg : String := "Skipped due to failed text/profile extraction."

/-- Skip test of the engine loop (src/main.py line 443): the parsed
profile is falsy or contains the substring No text extracted. -/
def skipCond (parsed : String) : Bool :=
  parsed = "" || listContainsSub "No text extracted".toList parsed.toList

/-- Rating recorded for one candidate by the engine loop body
(src/main.py lines 442-465): the skip rating when the skip test holds,
otherwise the parsed outcome of the scoring service call. -/
def ratingFor (job : String) (svc : String → String → Except String String)
    (c : String × CvInfo) : CandidateRating :=
  if skipCond c.2.parsed_info then ⟨c.1, 0, skipMsg⟩
  else
    let sj := rate_cv_suitability (svc job c.2.parsed_info)
    ⟨c.1, sj.1, sj.2⟩

/-- Embedding of the engine loop of _run_matching_and_rating (src/main.py
lines 442-469): left to right over the candidate mapping items, threading
the ratings list, the running maximum score (initially minus one) and the
current most suitable rating (initially none, replaced only on a strictly
greater score, and never touched by the skip branch). -/
def engineGo (job : String) (svc : String → String → Except String String) :
    List (String × CvInfo) → Int → Option CandidateRating →
    List CandidateRating × Option CandidateRating
  | [], _, most => ([], most)
  | c :: rest, maxScore, most =>
    if skipCond c.2.parsed_info then
      let r : CandidateRating := ⟨c.1, 0, skipMsg⟩
      let out := engineGo job svc rest maxScore most
      (r :: out.1, out.2)
    else
      let sj := rate_cv_suitability (svc job c.2.parsed_info)
      let r : CandidateRating := ⟨c.1, sj.1, sj.2⟩
      if (r.score : Int) > maxScore then
        let out := engineGo job svc rest (r.score : Int) (some r)
        (r :: out.1, out.2)
      else
        let out := engineGo job svc rest maxScore most
        (r :: out.1, out.2)

/-- Stable descending insertion: the new element is placed after exactly
the elements of strictly greater score, so earlier elements of equal
score stay in front. -/
def sortInsert (r : CandidateRating) : List CandidateRating → List CandidateRating
  | [] => [r]
  | x :: xs => if r.score < x.score then x :: sortInsert r xs else r :: x :: xs

/-- Models the Python stable sort with key score and reverse True
(src/main.py line 477): the unique stable reordering that is descending
by score. -/
def pySortDesc : List CandidateRating → List CandidateRating
  | [] => []
  | r :: rs => sortInsert r (pySortDesc rs)

/-- Embedding of _run_matching_and_rating (src/main.py lines 434-479):
run the engine loop, return early with no result when no rating and no
most suitable candidate exist, otherwise the most suitable rating and the
ratings sorted descending by score. -/
def run_matching_and_rating (job : String)
    (svc : String → String → Except String String)
    (cvData : List (String × CvInfo)) :
    Option CandidateRating × List CandidateRating :=
  let out := engineGo job svc cvData (-1) none
  if out.1.isEmpty && out.2.isNone then (none, [])
  else (out.2, pySortDesc out.1)

/-- Embedding of the page loop of convert_pdf_to_images (src/main.py
lines 28-41): pages are rendered in order into the accumulator; an
exception while rendering any page abandons the accumulated list and
returns the empty list. -/
def convert_pdf_to_images_go {β : Type} : List (Except String β) → List β → List β
  | [], acc => acc
  | .error _ :: _, _ => []
  | .ok b :: rest, acc => convert_pdf_to_images_go rest (acc ++ [b])

/-- Embedding of convert_pdf_to_images (src/main.py lines 24-41).  The
argument is the outcome of opening the document: an exception, or the
list of per page render outcomes.  A failed open returns the empty
list. -/
def convert_pdf_to_images {β : Type} (doc : Except String (List (Except String β))) :
    List β :=
  match doc with
  | .error _ => []
  | .ok pages => convert_pdf_to_images_go pages []

/-- Extension dispatch of _process_document_to_text_list (src/main.py
line 272): lower case the path and test the suffix dot pdf. -/
def endsWithPdf (path : String) : Bool :=
  ".pdf".toList.isSuffixOf (path.toList.map Char.toLower)

/-- Page production of _process_document_to_text_list (src/main.py lines
271-282): a pdf path goes through the converter, any other path is read
as a single image whose bytes are wrapped unmodified; a failed file read
aborts the whole helper (modelled as none). -/
def document_pages {β : Type} (path : String)
    (pdfDoc : Except String (List (Except String β)))
    (fileRead : Except String β) : Option (List β) :=
  if endsWithPdf path then some (convert_pdf_to_images pdfDoc)
  else
    match fileRead with
    | .ok b => some [b]
    | .error _ => none

/-- Embedding of get_text_from_image_data (src/main.py lines 43-61).  The
argument is the outcome of the vision service call: an exception, or the
text parts of the reply.  Any exception yields the empty string. -/
def get_text_from_image_data (svcReply : Except String (List String)) : String :=
  match svcReply with
  | .error _ => ""
  | .ok parts => String.join parts

/-- Embedding of _process_document_to_text_list for one document
(src/main.py lines 261-294): extract text from every page in order into a
list and join the page texts with a blank line separator; a failed file
read returns the empty string. -/
def process_document_to_text_list {β : Type} (path : String)
    (pdfDoc : Except String (List (Except String β)))
    (fileRead : Except String β) (extract : β → String) : String :=
  match document_pages path pdfDoc fileRead with
  | none => ""
  | some pages =>
    String.intercalate "\n\n" (pages.foldl (fun acc p => acc ++ [extract p]) [])

/-- Candidate key derivation (src/main.py line 383): the path component
after the last slash, the last element of the Python split on slash. -/
def basename (path : String) : String :=
  String.mk ((path.toList.reverse.takeWhile (fun c => c ≠ '/')).reverse)

/-- Per file body of _run_cv_processing (src/main.py lines 388-397): when
the extracted text is non empty after stripping, store the text and the
parsed profile; otherwise store the failure sentinels without calling the
profile service. -/
def process_one_cv (full_text : String) (parse : String → String) : CvInfo :=
  if pyStripStr full_text ≠ "" then ⟨full_text, parse full_text⟩
  else ⟨"Could not extract text.", "No text extracted."⟩

/-- Python dict assignment: replace the value in place when the key is
present, otherwise append the pair, preserving insertion order. -/
def dictInsert (d : List (String × CvInfo)) (k : String) (v : CvInfo) :
    List (String × CvInfo) :=
  if d.any (fun kv => kv.1 = k) then
    d.map (fun kv => if kv.1 = k then (k, v) else kv)
  else d ++ [(k, v)]

/-- Embedding of _run_cv_processing (src/main.py lines 379-399): build
the candidate mapping file by file, keyed by basename, with dict
assignment semantics.  The extract oracle stands for the text produced by
_process_document_to_text_list for a path, the parse oracle for
parse_cv_skills_and_experience. -/
def run_cv_processing (extract : String → String) (parse : String → String)
    (file_paths : List String) : List (String × CvInfo) :=
  file_paths.foldl
    (fun d path => dictInsert d (basename path) (process_one_cv (extract path) parse)) []

/-- Running strict maximum tracking of the engine loop restricted to the
scored ratings: the candidate is replaced only on a strictly greater
score. -/
def runMax : Int → Option CandidateRating → List CandidateRating → Option CandidateRating
  | _, most, [] => most
  | m, most, r :: rs =>
    if (r.score : Int) > m then runMax (r.score : Int) (some r) rs
    else runMax m most rs

/-- Maximum score occurring in a list of ratings, zero for the empty
list. -/
def maxScoreOf : List CandidateRating → Nat
  | [] => 0
  | r :: rs => max r.score (maxScoreOf rs)

/-- The scored (non skipped) ratings of a candidate mapping, in order. -/
def ratedOf (job : String) (svc : String → String → Except String String)
    (cvData : List (String × CvInfo)) : List CandidateRating :=
  (cvData.filter (fun c => !skipCond c.2.parsed_info)).map (ratingFor job svc)

/-! ### Concrete oracles and inputs used in scenarios, counterexamples and witnesses -/

/-- Scoring oracle that always returns an empty reply. -/
def svcTrivial : String → String → Except String String := fun _ _ => Except.ok ""

/-- Scoring oracle that always raises, with message boom. -/
def svcErr : String → String → Except String String := fun _ _ => Except.error "boom"

/-- Scoring oracle replying seventy percent. -/
def svcSeventy : String → String → Except String String :=
  fun _ _ => Except.ok "PERCENTAGE: 70%\nJUSTIFICATION: fine"

/-- Scoring oracle replying fifty five percent. -/
def svcFiftyFive : String → String → Except String String :=
  fun _ _ => Except.ok "PERCENTAGE: 55%\nJUSTIFICATION: fine"

/-- Scoring oracle of the end to end ranking scenario: profiles A, B, C
score eighty, ninety five and ninety five. -/
def svcABC : String → String → Except String String := fun _ p =>
  if p = "profile A" then Except.ok "PERCENTAGE: 80%\nJUSTIFICATION: match A"
  else if p = "profile B" then Except.ok "PERCENTAGE: 95%\nJUSTIFICATION: match B"
  else Except.ok "PERCENTAGE: 95%\nJUSTIFICATION: match C"

/-- Candidate mapping of the end to end ranking scenario, in input order
A, B, C. -/
def cvDataABC : List (String × CvInfo) :=
  [("A.pdf", ⟨"cv a", "profile A"⟩),
   ("B.pdf", ⟨"cv b", "profile B"⟩),
   ("C.pdf", ⟨"cv c", "profile C"⟩)]

/-- A candidate mapping whose only candidate failed text extraction, as
stored by the cv processing loop. -/
def cvDataSkipOnly : List (String × CvInfo) :=
  [("cv1.pdf", ⟨"Could not extract text.", "No text extracted."⟩)]

/-- A candidate mapping with one successfully extracted candidate. -/
def cvDataOne : List (String × CvInfo) := [("a.pdf", ⟨"cv text", "profile text"⟩)]

/-- The record stored for a candidate whose profile service call raised:
the parsed profile is the error description, not the extraction failure
sentinel. -/
def profileErrInfo : CvInfo :=
  ⟨"raw cv text", parse_cv_skills_and_experience (Except.error "boom")⟩

/-- Demo text extraction oracle for two paths. -/
def extractDemo : String → String :=
  fun p => if p = "dirA/cv.png" then "text A" else "text B"

/-- Demo text extraction oracle whose first path yields no text. -/
def extractFailA : String → String :=
  fun p => if p = "a/x.pdf" then "" else "some text"

/-- Demo profile oracle. -/
def parseDemo : String → String := fun t => "profile of " ++ t

/-- A second, different demo profile oracle. -/
def parseAlt : String → String := fun t => "alt profile of " ++ t

/-- Demo vision oracle over numeric page handles: page one has text,
every other page raises. -/
def textSvcDemo : Nat → Except String (List String) :=
  fun n => if n = 1 then Except.ok ["page one"] else Except.error "vision down"

/-! ### Helper lemmas about the stable descending sort -/

theorem mem_sortInsert (a r : CandidateRating) (l : List CandidateRating) :
    a ∈ sortInsert r l ↔ a = r ∨ a ∈ l := by
  induction l with
  | nil => simp [sortInsert]
  | cons x xs ih =>
    by_cases h : r.score < x.score
    · simp only [sortInsert, if_pos h, List.mem_cons, ih]
      tauto
    · simp only [sortInsert, if_neg h, List.mem_cons]

theorem mem_pySortDesc (a : CandidateRating) (l : List CandidateRating) :
    a ∈ pySortDesc l ↔ a ∈ l := by
  induction l with
  | nil => simp [pySortDesc]
  | cons x xs ih =>
    simp [pySortDesc, mem_sortInsert, ih]

theorem length_sortInsert (r : CandidateRating) (l : List CandidateRating) :
    (sortInsert r l).length = l.length + 1 := by
  induction l with
  | nil => simp [sortInsert]
  | cons x xs ih =>
    by_cases h : r.score < x.score
    · simp [sortInsert, if_pos h, ih]
    · simp [sortInsert, if_neg h]

theorem length_pySortDesc (l : List CandidateRating) :
    (pySortDesc l).length = l.length := by
  induction l with
  | nil => rfl
  | cons x xs ih => simp [pySortDesc, length_sortInsert, ih]

theorem pairwise_sortInsert (r : CandidateRating) (l : List CandidateRating)
    (h : l.Pairwise (fun a b => b.score ≤ a.score)) :
    (sortInsert r l).Pairwise (fun a b => b.score ≤ a.score) := by
  induction l with
  | nil => simp [sortInsert]
  | cons x xs ih =>
    rcases List.pairwise_cons.mp h with ⟨hx, hxs⟩
    by_cases hc : r.score < x.score
    · simp only [sortInsert, if_pos hc]
      refine List.pairwise_cons.mpr ⟨?_, ih hxs⟩
      intro b hb
      rcases (mem_sortInsert b r xs).mp hb with rfl | hbxs
      · omega
      · exact hx b hbxs
    · simp only [sortInsert, if_neg hc]
      refine List.pairwise_cons.mpr ⟨?_, h⟩
      intro b hb
      rcases List.mem_cons.mp hb with rfl | hbxs
      · omega
      · have := hx b hbxs
        omega

theorem pairwise_pySortDesc (l : List CandidateRating) :
    (pySortDesc l).Pairwise (fun a b => b.score ≤ a.score) := by
  induction l with
  | nil => simp [pySortDesc]
  | cons x xs ih => exact pairwise_sortInsert x (pySortDesc xs) ih

theorem filter_sortInsert_pos (r : CandidateRating) (l : List CandidateRating)
    (s : Nat) (hs : r.score = s) :
    (sortInsert r l).filter (fun x => x.score == s) =
      r :: l.filter (fun x => x.score == s) := by
  subst hs
  induction l with
  | nil => simp [sortInsert, List.filter]
  | cons x xs ih =>
    by_cases hc : r.score < x.score
    · have hx : (x.score == r.score) = false := by
        simp only [beq_eq_false_iff_ne, ne_eq]
        omega
      simp [sortInsert, if_pos hc, List.filter, hx, ih]
    · simp [sortInsert, if_neg hc, List.filter]

theorem filter_sortInsert_neg (r : CandidateRating) (l : List CandidateRating)
    (s : Nat) (hs : r.score ≠ s) :
    (sortInsert r l).filter (fun x => x.score == s) =
      l.filter (fun x => x.score == s) := by
  have hr : (r.score == s) = false := by simp [hs]
  induction l with
  | nil => simp [sortInsert, List.filter, hr]
  | cons x xs ih =>
    by_cases hc : r.score < x.score
    · simp only [sortInsert, if_pos hc, List.filter, ih]
    · simp only [sortInsert, if_neg hc, List.filter, hr]

theorem filter_pySortDesc (l : List CandidateRating) (s : Nat) :
    (pySortDesc l).filter (fun x => x.score == s) =
      l.filter (fun x => x.score == s) := by
  induction l with
  | nil => rfl
  | cons x xs ih =>
    by_cases hs : x.score = s
    · rw [pySortDesc, filter_sortInsert_pos x (pySortDesc xs) s hs, ih]
      simp [List.filter, hs]
    · rw [pySortDesc, filter_sortInsert_neg x (pySortDesc xs) s hs, ih]
      have hx : (x.score == s) = false := by simp [hs]
      simp [List.filter, hx]

theorem head?_filter_eq_find? (p : CandidateRating → Bool) (l : List CandidateRating) :
    (l.filter p).head? = l.find? p := by
  induction l with
  | nil => rfl
  | cons x xs ih =>
    by_cases hx : p x
    · simp [List.filter, hx, List.find?, ih]
    · have hx' : p x = false := by simpa using hx
      simp [List.filter, hx', List.find?, ih]

/-! ### Helper lemmas about the maximum score and the running maximum -/

theorem score_le_maxScoreOf (r : CandidateRating) (l : List CandidateRating)
    (h : r ∈ l) : r.score ≤ maxScoreOf l := by
  induction l with
  | nil => cases h
  | cons x xs ih =>
    rcases List.mem_cons.mp h with rfl | hxs
    · simp [maxScoreOf]
    · have := ih hxs
      simp only [maxScoreOf]
      omega

theorem exists_maxScoreOf (l : List CandidateRating) (h : l ≠ []) :
    ∃ r ∈ l, r.score = maxScoreOf l := by
  induction l with
  | nil => exact absurd rfl h
  | cons x xs ih =>
    by_cases hx : xs = []
    · subst hx
      exact ⟨x, List.mem_cons_self x [], by simp [maxScoreOf]⟩
    · rcases ih hx with ⟨r, hr, hrs⟩
      by_cases hc : maxScoreOf xs ≤ x.score
      · refine ⟨x, List.mem_cons_self x xs, ?_⟩
        simp only [maxScoreOf]
        omega
      · refine ⟨r, List.mem_cons_of_mem x hr, ?_⟩
        simp only [maxScoreOf]
        omega

theorem runMax_of_le (l : List CandidateRating) (m : Int)
    (mo : Option CandidateRating) (h : (maxScoreOf l : Int) ≤ m) :
    runMax m mo l = mo := by
  induction l generalizing m mo with
  | nil => rfl
  | cons x xs ih =>
    have hx : ¬ ((x.score : Int) > m) := by
      simp only [maxScoreOf] at h
      push_cast at h ⊢
      omega
    have hxs : (maxScoreOf xs : Int) ≤ m := by
      simp only [maxScoreOf] at h
      push_cast at h ⊢
      omega
    simp only [runMax, if_neg hx]
    exact ih m mo hxs

theorem runMax_some_isSome (l : List CandidateRating) (m : Int) (r : CandidateRating) :
    (runMax m (some r) l).isSome := by
  induction l generalizing m r with
  | nil => rfl
  | cons x xs ih =>
    by_cases hx : (x.score : Int) > m
    · simp only [runMax, if_pos hx]
      exact ih _ _
    · simp only [runMax, if_neg hx]
      exact ih _ _

theorem runMax_of_lt (l : List CandidateRating) (m : Int)
    (mo : Option CandidateRating) (hne : l ≠ [])
    (h : m < (maxScoreOf l : Int)) :
    runMax m mo l = l.find? (fun r => r.score == maxScoreOf l) := by
  induction l generalizing m mo with
  | nil => exact absurd rfl hne
  | cons x xs ih =>
    by_cases hc : maxScoreOf xs ≤ x.score
    · have hM : maxScoreOf (x :: xs) = x.score := by
        simp only [maxScoreOf]
        omega
      have hx : (x.score : Int) > m := by
        rw [hM] at h
        omega
      have hfind : (x :: xs).find? (fun r => r.score == maxScoreOf (x :: xs)) = some x := by
        rw [List.find?_cons_of_pos]
        simp [hM]
      rw [hfind]
      simp only [runMax, if_pos hx]
      apply runMax_of_le
      exact_mod_cast hc
    · have hM : maxScoreOf (x :: xs) = maxScoreOf xs := by
        simp only [maxScoreOf]
        omega
      have hxne : xs ≠ [] := by
        intro hnil
        rw [hnil] at hc
        simp [maxScoreOf] at hc
      have hxfalse : (x.score == maxScoreOf (x :: xs)) = false := by
        simp only [beq_eq_false_iff_ne, ne_eq, hM]
        omega
      rw [List.find?_cons_of_neg _ (by simp [hxfalse] : ¬ _), hM]
      by_cases hx : (x.score : Int) > m
      · simp only [runMax, if_pos hx]
        exact ih _ _ hxne (by omega)
      · simp only [runMax, if_neg hx]
        exact ih _ _ hxne (by rw [hM] at h; exact h)

/-! ### Helper lemmas about the engine loop -/

theorem engineGo_fst (job : String) (svc : String → String → Except String String)
    (cvData : List (String × CvInfo)) (m : Int) (mo : Option CandidateRating) :
    (engineGo job svc cvData m mo).1 = cvData.map (ratingFor job svc) := by
  induction cvData generalizing m mo with
  | nil => rfl
  | cons c rest ih =>
    by_cases hs : skipCond c.2.parsed_info
    · simp only [engineGo, if_pos hs, List.map, ratingFor, ih]
    · simp only [engineGo, if_neg hs, List.map, ratingFor]
      by_cases hgt : ((rate_cv_suitability (svc job c.2.parsed_info)).1 : Int) > m
      · simp only [if_pos hgt, ih]
      · simp only [if_neg hgt, ih]

theorem engineGo_snd (job : String) (svc : String → String → Except String String)
    (cvData : List (String × CvInfo)) (m : Int) (mo : Option CandidateRating) :
    (engineGo job svc cvData m mo).2 = runMax m mo (ratedOf job svc cvData) := by
  induction cvData generalizing m mo with
  | nil => rfl
  | cons c rest ih =>
    by_cases hs : skipCond c.2.parsed_info
    · have hfilter : ratedOf job svc (c :: rest) = ratedOf job svc rest := by
        simp [ratedOf, List.filter, hs]
      rw [hfilter]
      simp only [engineGo, if_pos hs]
      exact ih m mo
    · have hfilter : ratedOf job svc (c :: rest) =
        ratingFor job svc c :: ratedOf job svc rest := by
        simp [ratedOf, List.filter, hs]
      rw [hfilter]
      have hr : ratingFor job svc c =
          ⟨c.1, (rate_cv_suitability (svc job c.2.parsed_info)).1,
            (rate_cv_suitability (svc job c.2.parsed_info)).2⟩ := by
        simp [ratingFor, if_neg hs]
      simp only [engineGo, if_neg hs, runMax, hr]
      by_cases hgt : ((rate_cv_suitability (svc job c.2.parsed_info)).1 : Int) > m
      · simp only [if_pos hgt, ih]
      · simp only [if_neg hgt, ih]

theorem run_matching_eq (job : String) (svc : String → String → Except String String)
    (cvData : List (String × CvInfo)) :
    run_matching_and_rating job svc cvData =
      ((engineGo job svc cvData (-1) none).2,
        pySortDesc (engineGo job svc cvData (-1) none).1) := by
  unfold run_matching_and_rating
  by_cases hc : (engineGo job svc cvData (-1) none).1.isEmpty
      && (engineGo job svc cvData (-1) none).2.isNone
  · have h1 : (engineGo job svc cvData (-1) none).1 = [] := by
      have := (Bool.and_eq_true _ _).mp hc
      exact List.isEmpty_iff.mp this.1
    have h2 : (engineGo job svc cvData (-1) none).2 = none := by
      have := (Bool.and_eq_true _ _).mp hc
      exact Option.isNone_iff_eq_none.mp this.2
    simp [hc, h1, h2, pySortDesc]
  · simp [hc]

theorem maxScoreOf_map_eq_rated (job : String)
    (svc : String → String → Except String String)
    (cvData : List (String × CvInfo)) :
    maxScoreOf (cvData.map (ratingFor job svc)) =
      maxScoreOf (ratedOf job svc cvData) := by
  induction cvData with
  | nil => rfl
  | cons c rest ih =>
    by_cases hs : skipCond c.2.parsed_info
    · have h0 : (ratingFor job svc c).score = 0 := by
        simp [ratingFor, if_pos hs]
      have hfilter : ratedOf job svc (c :: rest) = ratedOf job svc rest := by
        simp [ratedOf, List.filter, hs]
      simp only [List.map, maxScoreOf, h0, hfilter, ih]
      omega
    · have hfilter : ratedOf job svc (c :: rest) =
        ratingFor job svc c :: ratedOf job svc rest := by
        simp [ratedOf, List.filter, hs]
      simp only [List.map, maxScoreOf, hfilter, ih]

theorem find?_map_eq_rated (job : String)
    (svc : String → String → Except String String)
    (cvData : List (String × CvInfo)) (s : Nat) (hs : 1 ≤ s) :
    (cvData.map (ratingFor job svc)).find? (fun r => r.score == s) =
      (ratedOf job svc cvData).find? (fun r => r.score == s) := by
  induction cvData with
  | nil => rfl
  | cons c rest ih =>
    by_cases hsk : skipCond c.2.parsed_info
    · have h0 : (ratingFor job svc c).score = 0 := by
        simp [ratingFor, if_pos hsk]
      have hfilter : ratedOf job svc (c :: rest) = ratedOf job svc rest := by
        simp [ratedOf, List.filter, hsk]
      have hfalse : ((ratingFor job svc c).score == s) = false := by
        simp [h0]
        omega
      simp only [List.map, hfilter]
      simp only [List.find?_cons, hfalse]
      exact ih
    · have hfilter : ratedOf job svc (c :: rest) =
        ratingFor job svc c :: ratedOf job svc rest := by
        simp [ratedOf, List.filter, hsk]
      simp only [List.map, hfilter]
      by_cases hp : ((ratingFor job svc c).score == s) = true
      · simp only [List.find?_cons, hp]
      · have hp' : ((ratingFor job svc c).score == s) = false := by simpa using hp
        simp only [List.find?_cons, hp']
        exact ih

theorem pySortDesc_head? (l : List CandidateRating) (h : l ≠ []) :
    (pySortDesc l).head? = l.find? (fun r => r.score == maxScoreOf l) := by
  have hlen : (pySortDesc l).length = l.length := length_pySortDesc l
  have hne : pySortDesc l ≠ [] := by
    intro hnil
    rw [hnil] at hlen
    exact h (List.length_eq_zero.mp hlen.symm)
  obtain ⟨hd, tl, heq⟩ := List.exists_cons_of_ne_nil hne
  have hhd_mem : hd ∈ l := by
    rw [← mem_pySortDesc, heq]
    exact List.mem_cons_self hd tl
  have hhd_le : hd.score ≤ maxScoreOf l := score_le_maxScoreOf hd l hhd_mem
  obtain ⟨a, ha_mem, ha_score⟩ := exists_maxScoreOf l h
  have ha_sorted : a ∈ pySortDesc l := (mem_pySortDesc a l).mpr ha_mem
  have hpair := pairwise_pySortDesc l
  rw [heq] at hpair ha_sorted
  have hhd_ge : maxScoreOf l ≤ hd.score := by
    rcases List.mem_cons.mp ha_sorted with rfl | ha_tl
    · omega
    · have := (List.pairwise_cons.mp hpair).1 a ha_tl
      omega
  have hhd_score : hd.score = maxScoreOf l := le_antisymm hhd_le hhd_ge
  have hfind : l.find? (fun r => r.score == maxScoreOf l) =
      (l.filter (fun r => r.score == maxScoreOf l)).head? :=
    (head?_filter_eq_find? _ l).symm
  rw [hfind, ← filter_pySortDesc l (maxScoreOf l), heq]
  simp [List.filter, hhd_score]

/-! ### Helper lemmas about ingestion and cv processing -/

theorem foldl_append_map {β : Type} (f : β → String) (pages : List β) (acc : List String) :
    pages.foldl (fun acc p => acc ++ [f p]) acc = acc ++ pages.map f := by
  induction pages generalizing acc with
  | nil => simp
  | cons p ps ih => simp [List.foldl_cons, ih]

theorem convert_go_ok {β : Type} (bs : List β) (acc : List β) :
    convert_pdf_to_images_go (bs.map Except.ok) acc = acc ++ bs := by
  induction bs generalizing acc with
  | nil => simp [convert_pdf_to_images_go]
  | cons b rest ih => simp [convert_pdf_to_images_go, ih]

theorem convert_go_all_or_none {β : Type} (pages : List (Except String β)) (acc : List β) :
    (∃ bs : List β, pages = bs.map Except.ok ∧
      convert_pdf_to_images_go pages acc = acc ++ bs)
    ∨ convert_pdf_to_images_go pages acc = [] := by
  induction pages generalizing acc with
  | nil => exact Or.inl ⟨[], rfl, by simp [convert_pdf_to_images_go]⟩
  | cons p rest ih =>
    cases p with
    | error e => exact Or.inr rfl
    | ok b =>
      rcases ih (acc ++ [b]) with ⟨bs, hbs, hgo⟩ | hnil
      · refine Or.inl ⟨b :: bs, by simp [hbs], ?_⟩
        simp only [convert_pdf_to_images_go, hgo]
        simp
      · exact Or.inr (by simp only [convert_pdf_to_images_go, hnil])

theorem dictInsert_fresh (d : List (String × CvInfo)) (k : String) (v : CvInfo)
    (h : ∀ kv ∈ d, kv.1 ≠ k) : dictInsert d k v = d ++ [(k, v)] := by
  have hany : d.any (fun kv => kv.1 = k) = false := by
    rw [List.any_eq_false]
    intro kv hkv
    simpa using h kv hkv
  simp [dictInsert, hany]

theorem foldl_dictInsert_fresh (extract parse : String → String)
    (files : List String) (d : List (String × CvInfo))
    (hd : ∀ kv ∈ d, ∀ p ∈ files, kv.1 ≠ basename p)
    (hnd : (files.map basename).Nodup) :
    files.foldl
      (fun d path => dictInsert d (basename path) (process_one_cv (extract path) parse)) d
    = d ++ files.map (fun p => (basename p, process_one_cv (extract p) parse)) := by
  induction files generalizing d with
  | nil => simp
  | cons p ps ih =>
    have hnd' : basename p ∉ ps.map basename ∧ (ps.map basename).Nodup := by
      rw [List.map_cons] at hnd
      exact List.nodup_cons.mp hnd
    obtain ⟨hp_not, hps_nd⟩ := hnd'
    rw [List.foldl_cons,
      dictInsert_fresh d (basename p) _ (fun kv hkv => hd kv hkv p (List.mem_cons_self p ps)),
      ih (d ++ [(basename p, process_one_cv (extract p) parse)]) ?_ hps_nd]
    · simp
    · intro kv hkv q hq
      rcases List.mem_append.mp hkv with hkv_d | hkv_new
      · exact hd kv hkv_d q (List.mem_cons_of_mem p hq)
      · have hkv_eq : kv = (basename p, process_one_cv (extract p) parse) := by
          simpa using hkv_new
        intro hcontra
        apply hp_not
        have hbase : basename p = basename q := by
          rw [hkv_eq] at hcontra
          simpa using hcontra
        rw [hbase]
        exact List.mem_map_of_mem basename hq

theorem runMax_neg_one_none_iff (l : List CandidateRating) :
    runMax (-1) none l = none ↔ l = [] := by
  cases l with
  | nil => simp [runMax]
  | cons r rs =>
    have hgt : (r.score : Int) > -1 := by
      have := Int.natCast_nonneg r.score
      omega
    have hsome : (runMax (r.score : Int) (some r) rs).isSome :=
      runMax_some_isSome rs (r.score : Int) r
    simp only [runMax, if_pos hgt]
    constructor
    · intro h
      rw [h] at hsome
      cases hsome
    · intro h
      cases h

theorem ratedOf_eq_nil_iff (job : String) (svc : String → String → Except String String)
    (cvData : List (String × CvInfo)) :
    ratedOf job svc cvData = [] ↔ ∀ c ∈ cvData, skipCond c.2.parsed_info = true := by
  simp [ratedOf, List.map_eq_nil_iff, List.filter_eq_nil_iff]

/-! ### Claim theorems -/

/-- C10: PDF rasterization is all or nothing: for every open outcome the
conversion returns either the empty list or the complete list of all
successfully rendered pages, never a proper non-empty prefix of them. -/
theorem convert_pdf_all_or_nothing {β : Type} (doc : Except String (List (Except String β))) :
    convert_pdf_to_images doc = [] ∨
      ∃ bs : List β, doc = Except.ok (bs.map Except.ok) ∧
        convert_pdf_to_images doc = bs := by
  cases doc with
  | error e => exact Or.inl rfl
  | ok pages =>
    rcases convert_go_all_or_none pages [] with ⟨bs, hbs, hgo⟩ | hnil
    · refine Or.inr ⟨bs, by rw [hbs], ?_⟩
      simpa [convert_pdf_to_images] using hgo
    · exact Or.inl (by simpa [convert_pdf_to_images] using hnil)

/-- C7: a PDF whose N pages all render produces exactly those N raster
pages in page order, and the document page production wires them through
unchanged; an image path produces exactly one element wrapping the
original file bytes unmodified. -/
theorem rasterizer_page_counts {β : Type} (bs : List β) (b : β)
    (pathPdf pathImg : String)
    (pdfDoc : Except String (List (Except String β))) (fileRead : Except String β)
    (h1 : endsWithPdf pathPdf = true) (h2 : endsWithPdf pathImg = false) :
    convert_pdf_to_images (Except.ok (bs.map Except.ok)) = bs
    ∧ document_pages pathPdf (Except.ok (bs.map Except.ok)) fileRead = some bs
    ∧ document_pages pathImg pdfDoc (Except.ok b) = some [b] := by
  have hconv : convert_pdf_to_images (Except.ok (bs.map Except.ok)) = bs := by
    simpa [convert_pdf_to_images] using convert_go_ok bs []
  refine ⟨hconv, ?_, ?_⟩
  · simp [document_pages, h1, hconv]
  · simp [document_pages, h2]

/-- C7 witness at a two page PDF and a single image. -/
theorem rasterizer_page_counts_witness :
    convert_pdf_to_images (Except.ok ([10, 20].map Except.ok)) = [10, 20]
    ∧ document_pages "cv.pdf" (Except.ok ([10, 20].map Except.ok))
        (Except.error "no read") = some [10, 20]
    ∧ document_pages "photo.png" (Except.ok ([10, 20].map Except.ok))
        (Except.ok 7) = some [7] :=
  rasterizer_page_counts [10, 20] 7 "cv.pdf" "photo.png"
    (Except.ok ([10, 20].map Except.ok)) (Except.error "no read")
    (by decide) (by decide)

/-- C6: the raw text of a document equals the per page extracted texts
joined in page order by a blank line separator; there is one segment per
page, and a page whose extraction fails contributes the empty segment
rather than being skipped. -/
theorem ingestion_raw_text_join {β : Type} (textSvc : β → Except String (List String))
    (path : String) (pdfDoc : Except String (List (Except String β)))
    (fileRead : Except String β) (pages : List β)
    (h : document_pages path pdfDoc fileRead = some pages) :
    process_document_to_text_list path pdfDoc fileRead
        (fun b => get_text_from_image_data (textSvc b))
      = String.intercalate "\n\n"
          (pages.map (fun b => get_text_from_image_data (textSvc b)))
    ∧ (pages.map (fun b => get_text_from_image_data (textSvc b))).length = pages.length
    ∧ (∀ b e, textSvc b = Except.error e → get_text_from_image_data (textSvc b) = "") := by
  refine ⟨?_, by simp, ?_⟩
  · rw [process_document_to_text_list, h]
    show String.intercalate "\n\n"
        (pages.foldl (fun acc p => acc ++ [get_text_from_image_data (textSvc p)]) []) = _
    rw [foldl_append_map]
    simp
  · intro b e he
    simp [get_text_from_image_data, he]

/-- C6 witness at a one page image document whose page raises in the
vision service, contributing an empty segment. -/
theorem ingestion_raw_text_join_witness :
    process_document_to_text_list "scan.png" (Except.error "unused") (Except.ok 2)
        (fun b => get_text_from_image_data (textSvcDemo b))
      = String.intercalate "\n\n"
          ([2].map (fun b => get_text_from_image_data (textSvcDemo b))) :=
  (ingestion_raw_text_join textSvcDemo "scan.png" (Except.error "unused")
    (Except.ok 2) [2] (by decide)).1

/-- C4: the score extracted from a scoring service reply is the integer
of the first occurrence of the percentage pattern clamped into the range
zero to one hundred, zero when the pattern is absent; a reply with
PERCENTAGE: 137% yields one hundred, and PERCENTAGE: -5% yields zero
because the pattern requires a digit sequence after optional
whitespace. -/
theorem score_extraction_clamped :
    (∀ text : String, ∀ n : Nat, searchPercent text.toList = some n →
      (rate_cv_suitability (Except.ok text)).1 = max 0 (min 100 n))
    ∧ (∀ text : String, searchPercent text.toList = none →
      (rate_cv_suitability (Except.ok text)).1 = 0)
    ∧ (∀ text : String, (rate_cv_suitability (Except.ok text)).1 ≤ 100)
    ∧ (rate_cv_suitability (Except.ok "PERCENTAGE: 137%\nJUSTIFICATION: ok")).1 = 100
    ∧ (rate_cv_suitability (Except.ok "PERCENTAGE: -5%\nJUSTIFICATION: ok")).1 = 0 := by
  refine ⟨?_, ?_, ?_, by decide, by decide⟩
  · intro text n h
    show (match searchPercent text.toList with
      | some n => max 0 (min 100 n)
      | none => 0) = max 0 (min 100 n)
    rw [h]
  · intro text h
    show (match searchPercent text.toList with
      | some n => max 0 (min 100 n)
      | none => 0) = 0
    rw [h]
  · intro text
    show (match searchPercent text.toList with
      | some n => max 0 (min 100 n)
      | none => 0) ≤ 100
    cases h : searchPercent text.toList with
    | none => simp
    | some n => simp

/-- C4 witness at a reply without the percentage pattern. -/
theorem score_extraction_clamped_witness :
    (rate_cv_suitability (Except.ok "no score here")).1 = 0 :=
  score_extraction_clamped.2.1 "no score here" (by decide)

/-- C9: candidate profiles are keyed by the path component after the
last slash; two uploads with colliding basenames leave one candidate,
the later file overwriting the earlier, so the mapping and the ratings
can be strictly smaller than the upload batch. -/
theorem basename_collision_overwrites :
    basename "dirA/cv.png" = "cv.png"
    ∧ basename "dirB/cv.png" = "cv.png"
    ∧ run_cv_processing extractDemo parseDemo ["dirA/cv.png", "dirB/cv.png"] =
        [("cv.png", ⟨"text B", "profile of text B"⟩)]
    ∧ (run_cv_processing extractDemo parseDemo ["dirA/cv.png", "dirB/cv.png"]).length <
        (["dirA/cv.png", "dirB/cv.png"] : List String).length
    ∧ ((run_matching_and_rating "job" svcTrivial
          (run_cv_processing extractDemo parseDemo ["dirA/cv.png", "dirB/cv.png"])).2).length
        = 1 := by
  refine ⟨by decide, by decide, by decide, by decide, by decide⟩

/-- C5: the matching engine is total and isolates per candidate
failures: it contributes exactly one rating per candidate of the input
mapping (the ranked list has the same length, so processing of later
candidates always continues), the ratings list is the pointwise image of
the candidates, and a scoring service exception for a candidate yields a
score of zero with the error description as justification. -/
theorem engine_isolation_one_rating_each (job : String)
    (svc : String → String → Except String String)
    (cvData : List (String × CvInfo)) :
    ((run_matching_and_rating job svc cvData).2).length = cvData.length
    ∧ (engineGo job svc cvData (-1) none).1 = cvData.map (ratingFor job svc)
    ∧ (∀ c : String × CvInfo, ∀ e : String, skipCond c.2.parsed_info = false →
        svc job c.2.parsed_info = Except.error e →
        ratingFor job svc c = ⟨c.1, 0, "Error rating CV: " ++ e⟩) := by
  refine ⟨?_, engineGo_fst job svc cvData (-1) none, ?_⟩
  · rw [run_matching_eq]
    simp [length_pySortDesc, engineGo_fst]
  · intro c e hsk hsvc
    simp [ratingFor, hsk, hsvc, rate_cv_suitability]

/-- C5 witness at a single candidate whose scoring call raises with
message boom. -/
theorem engine_isolation_one_rating_each_witness :
    ratingFor "job" svcErr ("cv1.pdf", ⟨"raw", "profile"⟩) =
      ⟨"cv1.pdf", 0, "Error rating CV: boom"⟩ :=
  (engine_isolation_one_rating_each "job" svcErr
    [("cv1.pdf", ⟨"raw", "profile"⟩)]).2.2
    ("cv1.pdf", ⟨"raw", "profile"⟩) "boom" (by decide) rfl

/-- C2 counterexample: a candidate whose profile service call failed is
stored with the error description as profile, is not recognised by the
skip test, and is scored normally by the engine: on a service reply of
fifty five percent its recorded rating has score fifty five, not zero,
and its justification is not the skip message; the recorded rating also
depends on the scoring oracle, so the scoring service is invoked. -/
theorem profile_failure_scored_counterexample :
    skipCond profileErrInfo.parsed_info = false
    ∧ (run_matching_and_rating "job" svcFiftyFive [("cv1.pdf", profileErrInfo)]).2 =
        [⟨"cv1.pdf", 55, "fine"⟩]
    ∧ (55 : Nat) ≠ 0
    ∧ "fine" ≠ skipMsg
    ∧ ratingFor "job" svcFiftyFive ("cv1.pdf", profileErrInfo) ≠
        ratingFor "job" svcTrivial ("cv1.pdf", profileErrInfo) := by
  refine ⟨by decide, by decide, by decide, by decide, by decide⟩

/-- C2 amended: a candidate whose stored profile is empty or contains
the extraction failure sentinel No text extracted (the cases produced by
failed rasterization or empty extracted text) receives the rating with
score zero and the skip justification, independently of the job profile
and the scoring oracle, so the scoring service is not invoked for it;
and every candidate of the mapping contributes exactly its pointwise
rating. -/
theorem skip_branch_rating_amended (job job' : String)
    (svc svc' : String → String → Except String String)
    (c : String × CvInfo) (h : skipCond c.2.parsed_info = true) :
    ratingFor job svc c = ⟨c.1, 0, skipMsg⟩
    ∧ ratingFor job svc c = ratingFor job' svc' c
    ∧ ∀ cvData : List (String × CvInfo),
        (engineGo job svc cvData (-1) none).1 = cvData.map (ratingFor job svc) := by
  refine ⟨by simp [ratingFor, h], by simp [ratingFor, h],
    fun cvData => engineGo_fst job svc cvData (-1) none⟩

/-- C2 witness at the extraction failure sentinel record. -/
theorem skip_branch_rating_amended_witness :
    ratingFor "job" svcFiftyFive
        ("cv1.pdf", ⟨"Could not extract text.", "No text extracted."⟩) =
      ⟨"cv1.pdf", 0, skipMsg⟩ :=
  (skip_branch_rating_amended "job" "other job" svcFiftyFive svcTrivial
    ("cv1.pdf", ⟨"Could not extract text.", "No text extracted."⟩) (by decide)).1

/-- C3: the ranked list is sorted descending by score; candidates of
equal score keep their original insertion order (the filter of the
ranked list at every fixed score equals the filter of the unsorted
ratings list, which is the pointwise image of the input mapping in its
order); and the end to end scenario with scores eighty, ninety five and
ninety five in input order A, B, C ranks B, C, A with top B. -/
theorem ranked_sorted_stable (job : String)
    (svc : String → String → Except String String)
    (cvData : List (String × CvInfo)) :
    ((run_matching_and_rating job svc cvData).2).Pairwise
        (fun a b => b.score ≤ a.score)
    ∧ (∀ s : Nat, ((run_matching_and_rating job svc cvData).2).filter
          (fun r => r.score == s)
        = (cvData.map (ratingFor job svc)).filter (fun r => r.score == s))
    ∧ (engineGo job svc cvData (-1) none).1 = cvData.map (ratingFor job svc)
    ∧ run_matching_and_rating "Requires: Python, 3 yrs" svcABC cvDataABC =
        (some ⟨"B.pdf", 95, "match B"⟩,
          [⟨"B.pdf", 95, "match B"⟩, ⟨"C.pdf", 95, "match C"⟩,
            ⟨"A.pdf", 80, "match A"⟩]) := by
  refine ⟨?_, ?_, engineGo_fst job svc cvData (-1) none, by decide⟩
  · rw [run_matching_eq]
    exact pairwise_pySortDesc _
  · intro s
    rw [run_matching_eq]
    simp only [filter_pySortDesc, engineGo_fst]

/-- C1 counterexample: with a non empty candidate mapping whose only
candidate was skipped for failed extraction, the ranked list is non
empty (it holds the zero score skip rating) while the reported top
candidate is none, because the skip branch never updates the most
suitable candidate; this refutes the claim that the top is not none
whenever the ranked list is non empty and that it equals the first
ranked element. -/
theorem engine_top_none_counterexample :
    (run_matching_and_rating "job" svcTrivial cvDataSkipOnly).1 = none
    ∧ (run_matching_and_rating "job" svcTrivial cvDataSkipOnly).2 =
        [⟨"cv1.pdf", 0, skipMsg⟩]
    ∧ (run_matching_and_rating "job" svcTrivial cvDataSkipOnly).2 ≠ []
    ∧ (run_matching_and_rating "job" svcTrivial cvDataSkipOnly).1 ≠
        ((run_matching_and_rating "job" svcTrivial cvDataSkipOnly).2).head? := by
  refine ⟨by decide, by decide, by decide, by decide⟩

/-- C1 amended: the ranked list always has exactly one rating per
candidate, so it is non empty iff the mapping is non empty; the top is
none iff every candidate was skipped for failed extraction; and whenever
some recorded score is at least one, the top equals the first element of
the ranked list.  (When every recorded score is zero the top is the
first non skipped candidate, which can differ from the head of the
ranked list, as the counterexample shows for the all skipped case.) -/
theorem engine_top_ranked_amended (job : String)
    (svc : String → String → Except String String)
    (cvData : List (String × CvInfo)) :
    ((run_matching_and_rating job svc cvData).2).length = cvData.length
    ∧ ((run_matching_and_rating job svc cvData).1 = none ↔
        ∀ c ∈ cvData, skipCond c.2.parsed_info = true)
    ∧ (1 ≤ maxScoreOf (cvData.map (ratingFor job svc)) →
        (run_matching_and_rating job svc cvData).1 =
          ((run_matching_and_rating job svc cvData).2).head?) := by
  refine ⟨?_, ?_, ?_⟩
  · rw [run_matching_eq]
    simp [length_pySortDesc, engineGo_fst]
  · rw [run_matching_eq]
    simp only [engineGo_snd]
    rw [runMax_neg_one_none_iff]
    exact ratedOf_eq_nil_iff job svc cvData
  · intro hmax
    have hMrated := maxScoreOf_map_eq_rated job svc cvData
    have hne : cvData.map (ratingFor job svc) ≠ [] := by
      intro hnil
      rw [hnil] at hmax
      simp [maxScoreOf] at hmax
    have hratedne : ratedOf job svc cvData ≠ [] := by
      intro hnil
      rw [hnil] at hMrated
      rw [hMrated] at hmax
      simp [maxScoreOf] at hmax
    have hlt : (-1 : Int) < (maxScoreOf (ratedOf job svc cvData) : Int) := by
      have := Int.natCast_nonneg (maxScoreOf (ratedOf job svc cvData))
      omega
    rw [run_matching_eq]
    simp only [engineGo_snd, engineGo_fst]
    rw [runMax_of_lt _ _ _ hratedne hlt, pySortDesc_head? _ hne]
    rw [← hMrated]
    exact (find?_map_eq_rated job svc cvData _ hmax).symm

/-- C1 witness: with one successfully scored candidate of positive
score, the top equals the head of the ranked list. -/
theorem engine_top_ranked_amended_witness :
    (run_matching_and_rating "job" svcSeventy cvDataOne).1 =
      ((run_matching_and_rating "job" svcSeventy cvDataOne).2).head? :=
  (engine_top_ranked_amended "job" svcSeventy cvDataOne).2.2 (by decide)

/-- C8: a document whose extracted text is empty after stripping (in
particular one whose rasterization failed, which yields the empty raw
text) is stored with the failure sentinels and the profile service is
not invoked for it (its entry is the same for every profile oracle),
while every other document of a batch with distinct basenames still
produces its normal entry: the whole mapping is the pointwise image of
the file list. -/
theorem failed_document_isolation {β : Type} (parse parse' extract : String → String)
    (fileRead : Except String β) (textSvc : β → Except String (List String))
    (files : List String) (hnd : (files.map basename).Nodup) :
    run_cv_processing extract parse files =
      files.map (fun p => (basename p, process_one_cv (extract p) parse))
    ∧ (∀ p : String, pyStripStr (extract p) = "" →
        process_one_cv (extract p) parse =
          ⟨"Could not extract text.", "No text extracted."⟩
        ∧ process_one_cv (extract p) parse = process_one_cv (extract p) parse')
    ∧ (∀ path e, endsWithPdf path = true →
        process_document_to_text_list path (Except.error e) fileRead
          (fun b => get_text_from_image_data (textSvc b)) = "") := by
  refine ⟨?_, ?_, ?_⟩
  · exact foldl_dictInsert_fresh extract parse files [] (by simp) hnd
  · intro p hp
    constructor
    · simp [process_one_cv, hp]
    · simp [process_one_cv, hp]
  · intro path e hpdf
    rw [process_document_to_text_list]
    have hpages : document_pages path (Except.error e)
        (β := β) fileRead = some [] := by
      simp [document_pages, hpdf, convert_pdf_to_images]
    rw [hpages]
    rfl

/-- C8 witness at a two file batch whose first file yields no text. -/
theorem failed_document_isolation_witness :
    process_one_cv (extractFailA "a/x.pdf") parseDemo =
      ⟨"Could not extract text.", "No text extracted."⟩ :=
  ((failed_document_isolation parseDemo parseAlt extractFailA
      (Except.error "no read" : Except String Nat) textSvcDemo
      ["a/x.pdf", "b/y.png"] (by decide)).2.1 "a/x.pdf" (by decide)).1

end JobMatcher
